import Mathlib

/-!
Shallow embedding of `biofam/core/distributions/beta.py` (class `Beta`).

Numeric values of the underlying array library are modelled by `FVal`:
a finite rational, positive infinity, negative infinity, or NaN, with
IEEE-style propagation through the arithmetic the source uses
(`+`, `-`, elementwise division).  Arrays are lists of `FVal`; the
`dim` argument of the constructor is a vector length (the 1-D case).
The external special function `scipy.special.digamma` is a parameter
`dig` of every operation that uses it; a concrete model `digammaD` is
provided for evaluating the spec's concrete examples.
-/

/-- Extended numeric value of the array library: a finite rational,
positive infinity, negative infinity, or NaN. -/
inductive FVal where
  | fin (q : ℚ)
  | pinf
  | ninf
  | nan
  deriving DecidableEq

/-- IEEE-style negation. -/
def FVal.neg : FVal → FVal
  | .fin q => .fin (-q)
  | .pinf => .ninf
  | .ninf => .pinf
  | .nan => .nan

/-- IEEE-style addition: NaN propagates, opposite infinities give NaN. -/
def FVal.add : FVal → FVal → FVal
  | .nan, _ => .nan
  | _, .nan => .nan
  | .fin p, .fin q => .fin (p + q)
  | .fin _, .pinf => .pinf
  | .fin _, .ninf => .ninf
  | .pinf, .fin _ => .pinf
  | .ninf, .fin _ => .ninf
  | .pinf, .pinf => .pinf
  | .ninf, .ninf => .ninf
  | .pinf, .ninf => .nan
  | .ninf, .pinf => .nan

/-- IEEE-style subtraction, as addition of the negation. -/
def FVal.sub (x y : FVal) : FVal := x.add y.neg

/-- IEEE-style division (signed zero is not modelled; division of a
finite value by zero takes the sign of the numerator). -/
def FVal.div : FVal → FVal → FVal
  | .nan, _ => .nan
  | _, .nan => .nan
  | .fin p, .fin q =>
      if q = 0 then (if p = 0 then .nan else if 0 < p then .pinf else .ninf)
      else .fin (p / q)
  | .fin _, .pinf => .fin 0
  | .fin _, .ninf => .fin 0
  | .pinf, .fin q => if q < 0 then .ninf else .pinf
  | .ninf, .fin q => if q < 0 then .pinf else .ninf
  | .pinf, .pinf => .nan
  | .pinf, .ninf => .nan
  | .ninf, .pinf => .nan
  | .ninf, .ninf => .nan

/-- Embedding of `numpy.isinf`: true exactly on the two infinities. -/
def FVal.isinf : FVal → Bool
  | .pinf => true
  | .ninf => true
  | _ => false

/-- True exactly on finite values (neither an infinity nor NaN). -/
def FVal.isFinite : FVal → Bool
  | .fin _ => true
  | _ => false

/-- A constructor argument of the Python code: a scalar or a 1-D array
(`a` and `b` may be scalars or arrays broadcastable to `dim`). -/
inductive PyVal where
  | scl (x : FVal)
  | arr (xs : List FVal)
  deriving DecidableEq

/-- The `self.params` dictionary of the source, with its fixed key set
`a`, `b` turned into named fields. -/
structure BetaParams where
  a : List FVal
  b : List FVal
  deriving DecidableEq

/-- The `self.expectations` dictionary of the source, with its fixed key
set `E`, `lnE`, `lnEInv` turned into named fields. -/
structure BetaExpectations where
  E : List FVal
  lnE : List FVal
  lnEInv : List FVal
  deriving DecidableEq

/-- The `Beta` distribution object: the dimension stored by the base
class, the parameter arrays, and the derived expectation arrays. -/
structure Beta where
  dim : ℕ
  params : BetaParams
  expectations : BetaExpectations
  deriving DecidableEq

/-- Errors a construction can raise: the array library's broadcasting
`ValueError`, or the base class's `DimensionMismatch`. -/
inductive BetaError where
  | valueErrorBroadcast
  | dimensionMismatch
  deriving DecidableEq

/-- Embedding of `s.ones(dim) * v` for a scalar or 1-D argument `v`:
numpy broadcasting of shape `(dim,)` against the argument's shape.
A scalar or a length-1 array is replicated to length `dim`; an array of
length `dim` is kept; when `dim = 1` the argument's own length wins;
any other combination raises the library's broadcast `ValueError`.
Multiplication by `1.0` is the identity on every `FVal`, infinities and
NaN included. -/
def onesMul (dim : ℕ) : PyVal → Except BetaError (List FVal)
  | .scl x => .ok (List.replicate dim x)
  | .arr xs =>
      if xs.length = dim then .ok xs
      else
        match xs with
        | [x] => .ok (List.replicate dim x)
        | _ => if dim = 1 then .ok xs else .error .valueErrorBroadcast

/-- Elementwise `s.divide(a, a + b)`. -/
def computeE (a b : List FVal) : List FVal :=
  List.zipWith (fun x y => FVal.div x (FVal.add x y)) a b

/-- Elementwise `special.digamma(a) - special.digamma(a + b)`. -/
def computeLnE (dig : FVal → FVal) (a b : List FVal) : List FVal :=
  List.zipWith (fun x y => FVal.sub (dig x) (dig (FVal.add x y))) a b

/-- Elementwise `special.digamma(b) - special.digamma(a + b)`, before
the infinity correction. -/
def computeLnEInvRaw (dig : FVal → FVal) (a b : List FVal) : List FVal :=
  List.zipWith (fun x y => FVal.sub (dig y) (dig (FVal.add x y))) a b

/-- Embedding of `lnEInv[s.isinf(lnEInv)] = -s.inf`: every entry that is
an infinity (of either sign) is replaced by negative infinity. -/
def fixInf (xs : List FVal) : List FVal :=
  xs.map (fun x => if x.isinf then FVal.ninf else x)

/-- The three expectation arrays computed by `updateExpectations` from
parameter arrays `a`, `b`. -/
def computeExpectations (dig : FVal → FVal) (a b : List FVal) : BetaExpectations :=
  { E := computeE a b
    lnE := computeLnE dig a b
    lnEInv := fixInf (computeLnEInvRaw dig a b) }

/-- Embedding of `Beta.updateExpectations`: recompute `E`, `lnE`,
`lnEInv` from the current parameters and store them; nothing else. -/
def updateExpectations (dig : FVal → FVal) (β : Beta) : Beta :=
  { β with expectations := computeExpectations dig β.params.a β.params.b }

/-- Modelled from the spec: the base class method
`Distribution.CheckDimensionalities` (file `basic_distributions.py`, not
under `src/`) "validates that all held arrays share `dimension` (fails
with a DimensionMismatch error otherwise)"; the held parameter arrays
are `a` and `b`. -/
def checkDimensionalities (dim : ℕ) (pr : BetaParams) : Bool :=
  pr.a.length == dim && pr.b.length == dim

/-- The diagnostic message printed when an expectation is supplied. -/
def noticeMsg : String :=
  "The expectation of the Beta distribution is initialized consistently with the provided parameters (not with the provided expectation)"

/-- The printed output of a construction: the diagnostic notice exactly
when an expectation was supplied (the `E is None` test). -/
def initLogs (e : Option PyVal) : List String :=
  match e with
  | none => []
  | some _ => [noticeMsg]

/-- The object as first assembled by the constructor: the declared
dimension, the broadcast parameter arrays, and empty expectation arrays
(filled in immediately by `updateExpectations`). -/
def initBeta (dim : ℕ) (av bv : List FVal) : Beta :=
  { dim := dim, params := { a := av, b := bv },
    expectations := { E := [], lnE := [], lnEInv := [] } }

/-- The tail of the constructor once both parameter arrays have been
broadcast: compute the expectations from the stored parameters, emit
the notice when `E` was supplied, and run the base class dimensionality
check.  (In the source the expectations are computed before the check
runs; both steps are pure, so the result is stated with the check
outermost.) -/
def betaFinish (dig : FVal → FVal) (dim : ℕ) (av bv : List FVal) (e : Option PyVal) :
    Except BetaError (Beta × List String) :=
  if checkDimensionalities dim { a := av, b := bv } then
    .ok (updateExpectations dig (initBeta dim av bv), initLogs e)
  else .error .dimensionMismatch

/-- Embedding of `Beta.__init__(dim, a, b, E=None)`: broadcast `a` and
`b` to `dim`, store them, compute the expectations (in both branches of
the `E is None` test), emit the diagnostic notice when `E` was supplied,
then run the base class dimensionality check.  The returned list of
strings is the printed output of a successful construction. -/
def betaInit (dig : FVal → FVal) (dim : ℕ) (a b : PyVal) (e : Option PyVal) :
    Except BetaError (Beta × List String) :=
  match onesMul dim a with
  | .error err => .error err
  | .ok av =>
      match onesMul dim b with
      | .error err => .error err
      | .ok bv => betaFinish dig dim av bv e

/-- Embedding of `Beta.sample(n)`: read `a` and `b` from `self.params`
and return `s.random.beta(a, b)`.  The random-variate generator is the
parameter `rv`, fed the pair of shape parameters of each element and the
element's position in the process-wide random stream; the state of the
object is returned unchanged alongside the draws.  The argument `n` is
taken, exactly as in the source, and not used. -/
def sample (rv : FVal → FVal → ℕ → FVal) (β : Beta) (n : ℕ) : List FVal × Beta :=
  let a := β.params.a
  let b := β.params.b
  ((a.zip b).enum.map (fun p => rv p.2.1 p.2.2 p.1), β)

/-- Models the external numerics provider's digamma routine
(`scipy.special.digamma`), to which the source delegates.  Only these
facts about it are relied on, and each is true of the real routine in
IEEE double precision: it is finite at every positive argument used in
the spec's concrete examples (digamma(1e-8) ≈ -1.00000000577e8 and
digamma(5) ≈ 1.5061 are ordinary finite doubles, far from overflow), it
returns negative infinity at 0, and it propagates NaN.  The finite
values are rational stand-ins with the correct leading behaviour
`-1/q` for small `q`; no theorem depends on the specific finite value.
Negative arguments are not used by any theorem. -/
def digammaD : FVal → FVal
  | .fin q => if 0 < q then .fin (q - 1 - 1 / q) else if q = 0 then .ninf else .nan
  | .pinf => .pinf
  | .ninf => .nan
  | .nan => .nan

deriving instance DecidableEq for Except

/-- A degenerate instance for the infinity correction: `b = 0`, where
the digamma identity itself produces an infinity. -/
def betaDeg : Beta :=
  { dim := 1, params := { a := [FVal.fin 5], b := [FVal.fin 0] },
    expectations := { E := [], lnE := [], lnEInv := [] } }

/-- The spec's symmetric example: dimension 3, `a = b = [2,2,2]`. -/
def betaC1 : Beta :=
  { dim := 3,
    params := { a := [FVal.fin 2, FVal.fin 2, FVal.fin 2],
                b := [FVal.fin 2, FVal.fin 2, FVal.fin 2] },
    expectations := { E := [], lnE := [], lnEInv := [] } }

/-- A fixed deterministic model of the random-variate stream, used only
to instantiate `sample` at a concrete input. -/
def rvC : FVal → FVal → ℕ → FVal := fun _ _ i => FVal.fin (i : ℚ)

/-- A one-element instance for exercising `sample`. -/
def betaOne : Beta :=
  { dim := 1, params := { a := [FVal.fin 2], b := [FVal.fin 2] },
    expectations := { E := [FVal.fin (1 / 2)], lnE := [], lnEInv := [] } }

/-- External parameter mutation by the owning model: the parameter
arrays are overwritten in place; nothing else changes. -/
def setParams (β : Beta) (a b : List FVal) : Beta :=
  { β with params := { a := a, b := b } }

/-- The observable states of a Beta instance under a fixed digamma
routine: a successful construction, re-entered by direct parameter
mutation (with arrays of the declared dimension, per the spec's usage
contract) followed by the mandated `updateExpectations` call. -/
inductive Reach (dig : FVal → FVal) : Beta → Prop where
  | constructed (dim : ℕ) (a b : PyVal) (e : Option PyVal) (β : Beta) (logs : List String) :
      betaInit dig dim a b e = Except.ok (β, logs) → Reach dig β
  | mutated (β : Beta) (a b : List FVal) :
      Reach dig β → a.length = β.dim → b.length = β.dim →
      Reach dig (updateExpectations dig (setParams β a b))

/-- The state constructed by the symmetric scalar example
`dim = 1`, `a = b = 2`. -/
def betaSym : Beta :=
  updateExpectations digammaD
    { dim := 1, params := { a := [FVal.fin 2], b := [FVal.fin 2] },
      expectations := { E := [], lnE := [], lnEInv := [] } }

/-- Elementwise description of `List.zipWith` through `get?`. -/
theorem zipWith_get?_some {f : FVal → FVal → FVal} :
    ∀ (xs ys : List FVal) (i : ℕ) (x y : FVal), xs.get? i = some x → ys.get? i = some y →
      (List.zipWith f xs ys).get? i = some (f x y) := by
  intro xs
  induction xs with
  | nil => intro ys i x y hx; simp [List.get?] at hx
  | cons a as ih =>
    intro ys i x y hx hy
    cases ys with
    | nil => simp [List.get?] at hy
    | cons b bs =>
      cases i with
      | zero =>
        simp [List.get?] at hx hy
        subst hx; subst hy; rfl
      | succ j =>
        simpa using ih bs j x y (by simpa using hx) (by simpa using hy)

/-- C4: for every dimension, parameters and optional expectation,
constructing with a supplied `E` produces exactly the result of
constructing without it — same `Beta` state (hence same `E`, `lnE`,
`lnEInv`) and same error behaviour — except that the diagnostic notice
is appended to the printed output. -/
theorem c4_supplied_E_ignored (dig : FVal → FVal) (dim : ℕ) (a b : PyVal) (e : PyVal) :
    betaInit dig dim a b (some e) =
      Except.map (fun (p : Beta × List String) => (p.1, p.2 ++ [noticeMsg]))
        (betaInit dig dim a b none) := by
  unfold betaInit
  cases onesMul dim a with
  | error err => rfl
  | ok av =>
    cases onesMul dim b with
    | error err => rfl
    | ok bv =>
      unfold betaFinish initLogs
      by_cases h : checkDimensionalities dim { a := av, b := bv } = true
      · simp [h, Except.map]
      · simp [h, Except.map]

/-- C8: `sample` mutates no internal state: the parameters, the
expectations and the dimension of the object are unchanged by a call,
for every generator, instance and requested count. -/
theorem c8_sample_no_mutation (rv : FVal → FVal → ℕ → FVal) (β : Beta) (n : ℕ) :
    (sample rv β n).2.params.a = β.params.a ∧
    (sample rv β n).2.params.b = β.params.b ∧
    (sample rv β n).2.expectations = β.expectations ∧
    (sample rv β n).2.dim = β.dim := by
  exact ⟨rfl, rfl, rfl, rfl⟩

/-- C9: `updateExpectations` is deterministic and idempotent: a second
call without any intervening parameter mutation leaves the object
exactly as the first call did. -/
theorem c9_update_idempotent (dig : FVal → FVal) (β : Beta) :
    updateExpectations dig (updateExpectations dig β) = updateExpectations dig β := rfl

/-- C10: `updateExpectations` modifies only the expectations: the
parameter arrays `a`, `b` and the dimension are unchanged. -/
theorem c10_update_frame (dig : FVal → FVal) (β : Beta) :
    (updateExpectations dig β).params.a = β.params.a ∧
    (updateExpectations dig β).params.b = β.params.b ∧
    (updateExpectations dig β).dim = β.dim := ⟨rfl, rfl, rfl⟩

/-- Elementwise description of `fixInf` through `get?`. -/
theorem fixInf_get? (xs : List FVal) (i : ℕ) (x : FVal) (hx : xs.get? i = some x) :
    (fixInf xs).get? i = some (if x.isinf then FVal.ninf else x) := by
  rw [fixInf, List.get?_map, hx, Option.map_some']

/-- C2 (amended): after `updateExpectations`, an `lnEInv` entry whose
raw digamma-identity value was an infinity of either sign is stored as
negative infinity exactly, and no stored entry is positive infinity;
entries whose raw value was finite or NaN are stored unchanged. -/
theorem c2_lnEInv_inf_correction (dig : FVal → FVal) (β : Beta) (i : ℕ) (x : FVal)
    (hx : (computeLnEInvRaw dig β.params.a β.params.b).get? i = some x) :
    (updateExpectations dig β).expectations.lnEInv.get? i =
        some (if x.isinf then FVal.ninf else x) ∧
      (x.isinf = true →
        (updateExpectations dig β).expectations.lnEInv.get? i = some FVal.ninf) ∧
      (updateExpectations dig β).expectations.lnEInv.get? i ≠ some FVal.pinf := by
  have hmain : (updateExpectations dig β).expectations.lnEInv.get? i =
      some (if x.isinf then FVal.ninf else x) := fixInf_get? _ i x hx
  refine ⟨hmain, fun h => by rw [hmain, h]; rfl, ?_⟩
  rw [hmain]
  cases x <;> simp [FVal.isinf]

/-- C2, concrete witness of the correction firing: with `b = 0` the raw
digamma-identity entry is negative infinity, and the stored entry is
negative infinity exactly and is not positive infinity. -/
theorem c2_lnEInv_inf_correction_witness :
    (computeLnEInvRaw digammaD betaDeg.params.a betaDeg.params.b).get? 0 = some FVal.ninf ∧
      ((updateExpectations digammaD betaDeg).expectations.lnEInv.get? 0 =
          some (if FVal.ninf.isinf then FVal.ninf else FVal.ninf) ∧
        (FVal.ninf.isinf = true →
          (updateExpectations digammaD betaDeg).expectations.lnEInv.get? 0 = some FVal.ninf) ∧
        (updateExpectations digammaD betaDeg).expectations.lnEInv.get? 0 ≠ some FVal.pinf) :=
  ⟨by norm_num [betaDeg, computeLnEInvRaw, digammaD, FVal.sub, FVal.add, FVal.neg],
   c2_lnEInv_inf_correction digammaD betaDeg 0 FVal.ninf
     (by norm_num [betaDeg, computeLnEInvRaw, digammaD, FVal.sub, FVal.add, FVal.neg])⟩

/-- C2, counterexample to the claimed concrete example: for `a = [5]`,
`b = [1e-8]`, digamma is finite at `1e-8` (≈ -1.0e8, far from double
overflow), so the computed `lnEInv` entry is a finite value and not
negative infinity. -/
theorem c2_example_counterexample :
    (betaInit digammaD 1 (PyVal.arr [FVal.fin 5]) (PyVal.arr [FVal.fin (1 / 100000000)])
          none).map (fun (p : Beta × List String) => p.1.expectations.lnEInv) ≠
      Except.ok [FVal.ninf] := by
  norm_num [betaInit, betaFinish, initBeta, initLogs, onesMul, updateExpectations, computeExpectations,
    computeE, computeLnE, computeLnEInvRaw, fixInf, checkDimensionalities, digammaD, FVal.sub,
    FVal.add, FVal.neg, FVal.isinf, FVal.div, Except.map] <;> decide

/-- C7: for `a = [1e-8]`, `b = [5]`, construction succeeds and the
computed `lnEInv` entry is finite (not an infinity, not NaN): the
infinity correction does not fire for the `a → 0` side. -/
theorem c7_asymmetry_example :
    (betaInit digammaD 1 (PyVal.arr [FVal.fin (1 / 100000000)]) (PyVal.arr [FVal.fin 5])
          none).map (fun (p : Beta × List String) => p.1.expectations.lnEInv.map FVal.isFinite) =
      Except.ok [true] := by
  norm_num [betaInit, betaFinish, initBeta, initLogs, onesMul, updateExpectations, computeExpectations,
    computeE, computeLnE, computeLnEInvRaw, fixInf, checkDimensionalities, digammaD, FVal.sub,
    FVal.add, FVal.neg, FVal.isinf, FVal.isFinite, FVal.div, Except.map]

/-- C3, counterexample: constructing with `dim = 3` and a parameter
array `a` of length 2 fails with the array library's broadcast
`ValueError`, not with `DimensionMismatch`. -/
theorem c3_mismatch_counterexample :
    betaInit digammaD 3 (PyVal.arr [FVal.fin 1, FVal.fin 2]) (PyVal.scl (FVal.fin 1)) none =
        Except.error BetaError.valueErrorBroadcast ∧
      BetaError.valueErrorBroadcast ≠ BetaError.dimensionMismatch := by decide

/-- C1: for a Beta instance whose parameter arrays are strictly positive
finite values of matching shape, after `updateExpectations` the stored
`E` equals `a/(a+b)` elementwise as an exact finite value, and `lnE`
equals `digamma(a) - digamma(a+b)` elementwise, for every digamma
routine `dig`. -/
theorem c1_expectation_formulas (dig : FVal → FVal) (β : Beta)
    (hlen : β.params.a.length = β.params.b.length)
    (ha : ∀ x ∈ β.params.a, ∃ q : ℚ, x = FVal.fin q ∧ 0 < q)
    (hb : ∀ x ∈ β.params.b, ∃ q : ℚ, x = FVal.fin q ∧ 0 < q)
    (i : ℕ) (hi : i < β.params.a.length) :
    ∃ qa qb : ℚ, β.params.a.get? i = some (FVal.fin qa) ∧
      β.params.b.get? i = some (FVal.fin qb) ∧ 0 < qa ∧ 0 < qb ∧
      (updateExpectations dig β).expectations.E.get? i = some (FVal.fin (qa / (qa + qb))) ∧
      (updateExpectations dig β).expectations.lnE.get? i =
        some (FVal.sub (dig (FVal.fin qa)) (dig (FVal.fin (qa + qb)))) := by
  have hib' : i < β.params.b.length := hlen ▸ hi
  have hia := List.get?_eq_get hi
  have hib := List.get?_eq_get hib'
  obtain ⟨qa, hqa, hqa0⟩ := ha _ (List.get?_mem hia)
  obtain ⟨qb, hqb, hqb0⟩ := hb _ (List.get?_mem hib)
  rw [hqa] at hia
  rw [hqb] at hib
  have hadd : FVal.add (FVal.fin qa) (FVal.fin qb) = FVal.fin (qa + qb) := rfl
  have hsum : qa + qb ≠ 0 := ne_of_gt (add_pos hqa0 hqb0)
  refine ⟨qa, qb, hia, hib, hqa0, hqb0, ?_, ?_⟩
  · have hE := zipWith_get?_some (f := fun x y => FVal.div x (FVal.add x y))
      β.params.a β.params.b i _ _ hia hib
    have hdiv : FVal.div (FVal.fin qa) (FVal.add (FVal.fin qa) (FVal.fin qb)) =
        FVal.fin (qa / (qa + qb)) := by
      rw [hadd]
      simp [FVal.div, hsum]
    show (computeE β.params.a β.params.b).get? i = _
    rw [computeE, hE]
    exact congrArg some hdiv
  · have hlnE := zipWith_get?_some (f := fun x y => FVal.sub (dig x) (dig (FVal.add x y)))
      β.params.a β.params.b i _ _ hia hib
    show (computeLnE dig β.params.a β.params.b).get? i = _
    rw [computeLnE, hlnE]
    exact rfl

/-- C1, witness: the formulas evaluated at entry 0 of the spec's
symmetric example, under the concrete digamma model. -/
theorem c1_expectation_formulas_witness :
    ∃ qa qb : ℚ, betaC1.params.a.get? 0 = some (FVal.fin qa) ∧
      betaC1.params.b.get? 0 = some (FVal.fin qb) ∧ 0 < qa ∧ 0 < qb ∧
      (updateExpectations digammaD betaC1).expectations.E.get? 0 =
        some (FVal.fin (qa / (qa + qb))) ∧
      (updateExpectations digammaD betaC1).expectations.lnE.get? 0 =
        some (FVal.sub (digammaD (FVal.fin qa)) (digammaD (FVal.fin (qa + qb)))) :=
  c1_expectation_formulas digammaD betaC1 (by decide)
    (by
      intro x hx
      simp only [betaC1, List.mem_cons, List.not_mem_nil, or_false] at hx
      rcases hx with rfl | rfl | rfl <;> exact ⟨2, rfl, by norm_num⟩)
    (by
      intro x hx
      simp only [betaC1, List.mem_cons, List.not_mem_nil, or_false] at hx
      rcases hx with rfl | rfl | rfl <;> exact ⟨2, rfl, by norm_num⟩)
    0 (by decide)

/-- C3 (amended): constructing with a parameter array `a` of length at
least 2 that mismatches the declared dimension always fails fatally,
but the error is `DimensionMismatch` only when the declared dimension
is 1 (where broadcasting succeeds with a wrong-shaped result and the
base class check fires); for any other dimension the array library's
broadcast `ValueError` is raised first. -/
theorem c3_mismatch_fails (dig : FVal → FVal) (dim : ℕ) (xs : List FVal) (b : FVal)
    (e : Option PyVal) (h2 : 2 ≤ xs.length) (hne : xs.length ≠ dim) :
    betaInit dig dim (PyVal.arr xs) (PyVal.scl b) e =
      Except.error
        (if dim = 1 then BetaError.dimensionMismatch else BetaError.valueErrorBroadcast) := by
  obtain ⟨x1, xs1, rfl⟩ : ∃ y l, xs = y :: l := by
    cases xs with
    | nil => simp at h2
    | cons y l => exact ⟨y, l, rfl⟩
  obtain ⟨x2, xs2, rfl⟩ : ∃ y l, xs1 = y :: l := by
    cases xs1 with
    | nil => simp at h2
    | cons y l => exact ⟨y, l, rfl⟩
  have hne' : xs2.length + 1 + 1 ≠ dim := by simpa using hne
  by_cases hdim : dim = 1
  · subst hdim
    simp [betaInit, betaFinish, initBeta, onesMul, hne', checkDimensionalities,
      updateExpectations, Nat.succ_ne_zero]
  · simp [betaInit, onesMul, hne', hdim]

/-- C3, witness of the amended claim: dimension 4 against a length-3
array fails with the broadcast error. -/
theorem c3_mismatch_fails_witness :
    betaInit digammaD 4 (PyVal.arr [FVal.fin 1, FVal.fin 2, FVal.fin 3])
        (PyVal.scl (FVal.fin 1)) none =
      Except.error
        (if (4 : ℕ) = 1 then BetaError.dimensionMismatch else BetaError.valueErrorBroadcast) :=
  c3_mismatch_fails digammaD 4 [FVal.fin 1, FVal.fin 2, FVal.fin 3] (FVal.fin 1) none
    (by decide) (by decide)

/-- C5, counterexample: on a one-element instance, `sample` with
`n = 3` returns a single draw, not 3 draws per element. -/
theorem c5_sample_counterexample :
    (sample rvC betaOne 3).1.length = 1 ∧
      (sample rvC betaOne 3).1.length ≠ 3 * betaOne.params.a.length := by
  constructor
  · rfl
  · intro h
    simp [sample, betaOne] at h

/-- C5 (amended): `sample` ignores its argument `n` entirely — the call
with any `n` returns exactly the result of the call with `n = 1` — and
when the parameter arrays have matching shape the returned array has
one draw per element, the shape of `a`. -/
theorem c5_sample_ignores_n (rv : FVal → FVal → ℕ → FVal) (β : Beta) (n : ℕ) :
    sample rv β n = sample rv β 1 ∧
      (β.params.a.length = β.params.b.length →
        (sample rv β n).1.length = β.params.a.length) := by
  refine ⟨rfl, fun h => ?_⟩
  simp [sample, List.enum_length, List.length_zip, h]

/-- C5, witness: the amended claim evaluated on the one-element
instance at `n = 2`. -/
theorem c5_sample_ignores_n_witness :
    sample rvC betaOne 2 = sample rvC betaOne 1 ∧
      (sample rvC betaOne 2).1.length = betaOne.params.a.length :=
  ⟨(c5_sample_ignores_n rvC betaOne 2).1,
   (c5_sample_ignores_n rvC betaOne 2).2 (by decide)⟩

/-- C6: in every observable state, the parameter arrays both have the
declared dimension as their shape, and the stored expectations are
exactly the expectations computed from the current parameters — no
stale derived state. -/
theorem c6_invariant (dig : FVal → FVal) (β : Beta) (h : Reach dig β) :
    β.params.a.length = β.dim ∧ β.params.b.length = β.dim ∧
      β.expectations = computeExpectations dig β.params.a β.params.b := by
  induction h with
  | constructed dim a b e β0 logs hinit =>
    rw [betaInit.eq_def] at hinit
    split at hinit
    · cases hinit
    · split at hinit
      · cases hinit
      · rw [betaFinish] at hinit
        split at hinit
        · rename_i hchk
          have hp := Except.ok.inj hinit
          rw [Prod.mk.injEq] at hp
          obtain ⟨hβ, -⟩ := hp
          subst hβ
          simp only [checkDimensionalities, updateExpectations, Bool.and_eq_true,
            beq_iff_eq] at hchk
          exact ⟨hchk.1, hchk.2, rfl⟩
        · cases hinit
  | mutated β0 a b hr hla hlb ih =>
    exact ⟨hla, hlb, rfl⟩

/-- C6, witness: the invariant holds at the concrete constructed state
`betaSym`. -/
theorem c6_invariant_witness :
    Reach digammaD betaSym ∧
      (betaSym.params.a.length = betaSym.dim ∧ betaSym.params.b.length = betaSym.dim ∧
        betaSym.expectations = computeExpectations digammaD betaSym.params.a betaSym.params.b) :=
  have h : Reach digammaD betaSym :=
    Reach.constructed 1 (PyVal.scl (FVal.fin 2)) (PyVal.scl (FVal.fin 2)) none betaSym []
      (by rfl)
  ⟨h, c6_invariant digammaD betaSym h⟩
